import Mathlib

/-!
Verification development for the trajectory signal-processing and kinematic
derivation pipeline of a football tracking-analytics repository.

The Python sources are shallowly embedded here.  Float arithmetic is modelled
by exact arithmetic: `ℚ` where every operation of the modelled code is
rational, `ℝ` where `numpy`-style square roots appear.  Missing values (NaN)
are modelled by `Option` where a function's behaviour on them matters
(coordinate inference); the smoothing functions are modelled on NaN-free
series, for which the interpolation branch of `_safe_savgol` is the identity.
`scipy.signal.savgol_filter(x, w, p)` (default mode `interp`) is embedded as
the exact least-squares polynomial fit it computes: every output sample is the
degree-`p` least-squares polynomial over the relevant `w`-sample window,
evaluated at the sample's position; the normal equations are solved by
Cramer's rule, which agrees with scipy's solver whenever the normal matrix is
nonsingular (always the case for `w > p` distinct sample positions).
-/

section GenericNumerics

variable {α : Type} [LinearOrderedField α]

/-- Laplace-expansion determinant of a square matrix given as rows, with
explicit fuel (the row count) for structural recursion. -/
def detListAux : Nat → List (List α) → α
  | 0, _ => 1
  | _, [] => 1
  | fuel + 1, r :: rs =>
      ((List.range r.length).map
        (fun j => (-1 : α) ^ j * r.getD j 0 *
          detListAux fuel (rs.map (fun row => row.eraseIdx j)))).sum

/-- Determinant of a square matrix given as a list of rows. -/
def detList (m : List (List α)) : α := detListAux m.length m

/-- Sum of the `k`-th powers of a list of sample positions. -/
def powSum (xs : List α) (k : Nat) : α := (xs.map (· ^ k)).sum

/-- Normal matrix `Aᵀ A` of the Vandermonde system for a degree-`(k-1)`
polynomial least-squares fit at positions `xs`. -/
def normalMatrix (xs : List α) (k : Nat) : List (List α) :=
  (List.range k).map (fun r => (List.range k).map (fun c => powSum xs (r + c)))

/-- Right-hand side `Aᵀ y` of the normal equations. -/
def momentVector (xs ys : List α) (k : Nat) : List α :=
  (List.range k).map (fun r => (List.zipWith (fun x y => x ^ r * y) xs ys).sum)

/-- Replace column `j` of a matrix by the vector `b` (for Cramer's rule). -/
def replaceColumn (m : List (List α)) (j : Nat) (b : List α) : List (List α) :=
  List.zipWith (fun row v => row.set j v) m b

/-- Coefficients (constant term first) of the degree-`deg` least-squares
polynomial through points `(xs i, ys i)`, via Cramer's rule on the normal
equations.  Equals `numpy.polyfit` / the fit underlying scipy's
Savitzky-Golay filter whenever the normal matrix is nonsingular. -/
def polyfitCoeffs (xs ys : List α) (deg : Nat) : List α :=
  let k := deg + 1
  let m := normalMatrix xs k
  let b := momentVector xs ys k
  let d := detList m
  (List.range k).map (fun j => detList (replaceColumn m j b) / d)

/-- Horner evaluation of a polynomial given by coefficients, constant first. -/
def polyEval : List α → α → α
  | [], _ => 0
  | c :: cs, x => c + x * polyEval cs x

/-- `scipy.signal.savgol_filter(data, window, order)` with the default
`mode='interp'`: interior samples use the least-squares fit over the centred
window, the first and last `window/2` samples use the fit over the first and
last `window` samples respectively, evaluated at their own position. -/
def savgolFilter (data : List α) (window order : Nat) : List α :=
  let n := data.length
  let m := window / 2
  let xs : List α := (List.range window).map (fun j => (j : α))
  (List.range n).map (fun i =>
    if i < m then
      polyEval (polyfitCoeffs xs (data.take window) order) (i : α)
    else if n - m ≤ i then
      polyEval (polyfitCoeffs xs (data.drop (n - window)) order)
        ((i - (n - window) : Nat) : α)
    else
      polyEval (polyfitCoeffs xs ((data.drop (i - m)).take window) order) (m : α))

/-- `_safe_savgol` from `src/preprocessing/filters.py`, on NaN-free data (the
NaN-interpolation branch is then the identity): an even window is incremented,
and the conditions under which `scipy.signal.savgol_filter` raises
(`window > len(data)` or `polyorder >= window` in `interp` mode) are the
`except` branch returning the data unchanged. -/
def safe_savgol (data : List α) (window order : Nat) : List α :=
  let w := if window % 2 = 0 then window + 1 else window
  if w ≤ data.length ∧ order < w then savgolFilter data w order else data

/-- `np.diff(ts, prepend=ts[0])`: consecutive timestamp deltas with a leading
zero, as computed by `apply_gap_aware_smoothing`. -/
def dtList (ts : List α) : List α :=
  List.zipWith (fun a b => a - b) ts (ts.headD 0 :: ts)

/-- `np.where(dt > max_gap_seconds)[0]`: the (ascending) indices at which the
timestamp delta exceeds the gap threshold. -/
def gapSplits (ts : List α) (maxGap : α) : List Nat :=
  (List.range ts.length).filter (fun i => decide (maxGap < (dtList ts).getD i 0))

/-- The per-segment body of the loop in `apply_gap_aware_smoothing`:
full-window smoothing for segments longer than the window, a shrunken odd
window (`len | 1`, minus 2 when that rounded up) for segments with
`poly_order + 2 < len <= window`, and a copy-through otherwise.
`segment.length ||| 1` is written out as its value: `len + 1` when `len` is
even, `len` when odd. -/
def processSegment (segment : List α) (window order : Nat) : List α :=
  if window < segment.length then safe_savgol segment window order
  else if order + 2 < segment.length then
    let w0 := if segment.length % 2 = 0 then segment.length + 1 else segment.length
    let w := if w0 = segment.length + 1 then w0 - 2 else w0
    if order < w then safe_savgol segment w order else segment
  else segment

/-- Cut `vals` into the segments `[start, b)` for successive bounds `b`. -/
def splitAtIndices (vals : List α) : List Nat → Nat → List (List α)
  | [], _ => []
  | b :: rest, start =>
      ((vals.drop start).take (b - start)) :: splitAtIndices vals rest b

/-- `apply_gap_aware_smoothing` from `src/preprocessing/filters.py` on NaN-free
series: series shorter than the window are returned unchanged; a gap-free
series is smoothed directly; otherwise the series is cut at the gap indices
and each segment is processed independently, the results concatenated in
place (the `smoothed[start:end]` assignments tile the output array). -/
def apply_gap_aware_smoothing (series ts : List α) (maxGap : α)
    (window order : Nat) : List α :=
  if series.length < window then series
  else
    let splits := gapSplits ts maxGap
    if splits = [] then safe_savgol series window order
    else
      ((splitAtIndices series (splits ++ [series.length]) 0).map
        (fun seg => processSegment seg window order)).flatten

/-- Interior samples of `np.gradient(f, t)` for non-uniform `t`: second-order
accurate three-point stencil, followed by the first-order one-sided difference
at the trailing edge.  Arguments: previous value, previous timestamp, the
remaining values, the remaining timestamps. -/
def gradMid : α → α → List α → List α → List α
  | fp, tp, fi :: fn :: fr, ti :: tn :: tr =>
      let hs := ti - tp
      let hd := tn - ti
      ((hs ^ 2 * fn + (hd ^ 2 - hs ^ 2) * fi - hd ^ 2 * fp) /
          (hs * hd * (hs + hd))) :: gradMid fi ti (fn :: fr) (tn :: tr)
  | fp, tp, [fi], [ti] => [(fi - fp) / (ti - tp)]
  | _, _, _, _ => []

/-- `np.gradient(f, t)` with coordinate array `t` (default `edge_order=1`):
one-sided differences at both edges, second-order non-uniform centred
differences in the interior.  numpy raises for fewer than two samples; the
model returns `[]` there (that branch is guarded by `len(df) > 1` upstream). -/
def npGradient (f t : List α) : List α :=
  match f, t with
  | f0 :: f1 :: fr, t0 :: t1 :: tr =>
      ((f1 - f0) / (t1 - t0)) :: gradMid f0 t0 (f1 :: fr) (t1 :: tr)
  | _, _ => []

/-- `np.min` over a nonempty list (junk value 0 on `[]`, which the modelled
code never reaches). -/
def npMin : List α → α
  | [] => 0
  | a :: t => t.foldl min a

/-- `np.max` over a nonempty list (junk value 0 on `[]`). -/
def npMax : List α → α
  | [] => 0
  | a :: t => t.foldl max a

/-- `np.diff`: consecutive differences. -/
def npDiff (l : List α) : List α := List.zipWith (fun a b => a - b) l.tail l

end GenericNumerics

section Coordinates

/-- `PITCH_LENGTH` from `src/config.py`. -/
def PITCH_LENGTH : ℚ := 105

/-- `PITCH_WIDTH` from `src/config.py`. -/
def PITCH_WIDTH : ℚ := 68

/-- `HALF_PITCH_LENGTH` from `src/config.py`. -/
def HALF_PITCH_LENGTH : ℚ := PITCH_LENGTH / 2

/-- `HALF_PITCH_WIDTH` from `src/config.py`. -/
def HALF_PITCH_WIDTH : ℚ := PITCH_WIDTH / 2

/-- The x-branch of `to_pitch_meters` in `src/utils/coordinates.py`, on one
(non-NaN) value. -/
def tpmX (v : ℚ) (sourceType : String) : ℚ :=
  if sourceType = "skillcorner" then v
  else if sourceType = "0_1" then v * PITCH_LENGTH - HALF_PITCH_LENGTH
  else if sourceType = "0_100" then v / 100 * PITCH_LENGTH - HALF_PITCH_LENGTH
  else v

/-- The y-branch of `to_pitch_meters` in `src/utils/coordinates.py`, on one
(non-NaN) value. -/
def tpmY (v : ℚ) (sourceType : String) : ℚ :=
  if sourceType = "skillcorner" then v
  else if sourceType = "0_1" then v * PITCH_WIDTH - HALF_PITCH_WIDTH
  else if sourceType = "0_100" then v / 100 * PITCH_WIDTH - HALF_PITCH_WIDTH
  else v

/-- `to_pitch_meters` from `src/utils/coordinates.py` on arrays with missing
values; the elementwise arithmetic propagates NaN (`Option.map`). -/
def to_pitch_meters (x y : List (Option ℚ)) (sourceType : String) :
    List (Option ℚ) × List (Option ℚ) :=
  (x.map (Option.map (fun v => tpmX v sourceType)),
   y.map (Option.map (fun v => tpmY v sourceType)))

/-- `infer_and_scale_coordinates` from `src/utils/coordinates.py`.  The
`validate_coordinate_bounds` call only logs a warning and is omitted. -/
def infer_and_scale_coordinates (x y : List (Option ℚ)) :
    List (Option ℚ) × List (Option ℚ) × String :=
  let xValid := x.filterMap id
  let yValid := y.filterMap id
  if xValid.length = 0 then (x, y, "empty")
  else
    let minX := npMin xValid
    let maxX := npMax xValid
    let minY := npMin yValid
    let maxY := npMax yValid
    let scaleSystem :=
      if maxX ≤ 1.5 ∧ maxY ≤ 1.5 ∧ 0 ≤ minX ∧ 0 ≤ minY then "0_1"
      else if maxX ≤ 110 ∧ maxY ≤ 110 ∧ (1.5 < maxX ∨ 1.5 < maxY) ∧
          -1 ≤ minX ∧ -1 ≤ minY then "0_100"
      else "skillcorner_meters"
    let p := to_pitch_meters x y scaleSystem
    (p.1, p.2, scaleSystem)

/-- The claim's classification rule, written exactly as the claim states it
(for comparison with `infer_and_scale_coordinates`): unit-square when
`max(|x|) <= 1.5`, `max(|y|) <= 1.5`, `min(x) >= 0`, `min(y) >= 0`; otherwise
percentage when `max(|x|) <= 110`, `max(|y|) <= 110`, `min(x) >= -1`,
`min(y) >= -1`; otherwise pitch-meters. -/
def claimInferredSystem (x y : List (Option ℚ)) : String :=
  let xv := x.filterMap id
  let yv := y.filterMap id
  if npMax (xv.map (fun v => |v|)) ≤ 1.5 ∧ npMax (yv.map (fun v => |v|)) ≤ 1.5 ∧
      0 ≤ npMin xv ∧ 0 ≤ npMin yv then "0_1"
  else if npMax (xv.map (fun v => |v|)) ≤ 110 ∧
      npMax (yv.map (fun v => |v|)) ≤ 110 ∧
      -1 ≤ npMin xv ∧ -1 ≤ npMin yv then "0_100"
  else "skillcorner_meters"

/-- `pandas.Series.quantile(q)` with the default linear interpolation, on a
NaN-free series: sort ascending, take the virtual index `q * (n - 1)` and
interpolate linearly between its neighbours. -/
def pdQuantile (l : List ℚ) (q : ℚ) : ℚ :=
  let s := l.insertionSort (· ≤ ·)
  let n := s.length
  if n = 0 then 0
  else
    let h := q * ((n : ℚ) - 1)
    let i := (⌊h⌋).toNat
    let frac := h - (i : ℚ)
    let a := s.getD i 0
    let b := s.getD (min (i + 1) (n - 1)) 0
    a + frac * (b - a)

/-- The normalized-coordinate rescaling step of `extract_player_data`
(`src/preprocessing/data.py` lines 61-67): if the DataFrame is nonempty and
the 99th percentile of `x` is below 1.2, multiply `x` by 105.0 and `y` by
68.0; otherwise leave both unchanged. -/
def extractScaleStep (x y : List ℚ) : List ℚ × List ℚ :=
  if x ≠ [] ∧ pdQuantile x (99/100) < 6/5 then
    (x.map (fun v => v * 105), y.map (fun v => v * 68))
  else (x, y)

end Coordinates

section MatchClock

/-- Zero-padded rendering of a (nonnegative) number of minutes or seconds, as
python's f-string `{v:02d}`. -/
def pad2 (n : Nat) : String := if n < 10 then "0" ++ toString n else toString n

/-- The scalar branch of `calculate_match_clock` from
`src/preprocessing/time.py`: `period_start_frames.get(period, 0)`,
`base = 0 if period == 1 else 45`, elapsed seconds floored at zero, rendered
as a zero-padded `MM:SS` string.  `total_minutes` and the remainder are
nonnegative here, so python's `int()` truncation is `Int.toNat` of the floor. -/
def calculate_match_clock_scalar (frame period : ℤ) (starts : List (ℤ × ℤ))
    (fps : ℚ) : String :=
  let start := (starts.lookup period).getD 0
  let base : ℤ := if period = 1 then 0 else 45
  let secondsElapsed : ℚ := max 0 (((frame - start : ℤ) : ℚ) / fps)
  let totalMinutes : ℤ := base + ⌊secondsElapsed / 60⌋
  let remSeconds : ℤ := ⌊secondsElapsed - 60 * (⌊secondsElapsed / 60⌋ : ℚ)⌋
  pad2 totalMinutes.toNat ++ ":" ++ pad2 remSeconds.toNat

/-- The vectorized branch of `calculate_match_clock` from
`src/preprocessing/time.py`, elementwise over the frame/period columns:
start frames and base minutes are 0 except under the `period == 1` /
`period == 2` masks, and the result is raw elapsed seconds
`base*60 + (frame - start)/fps` with no flooring. -/
def calculate_match_clock_vector (frames periods : List ℤ)
    (starts : List (ℤ × ℤ)) (fps : ℚ) : List ℚ :=
  let p1Start := (starts.lookup 1).getD 0
  let p2Start := (starts.lookup 2).getD 0
  List.zipWith
    (fun f p =>
      let startFrame : ℤ := if p = 1 then p1Start else if p = 2 then p2Start else 0
      let baseMinutes : ℚ := if p = 1 then 0 else if p = 2 then 45 else 0
      baseMinutes * 60 + ((f - startFrame : ℤ) : ℚ) / fps)
    frames periods

/-- The claim's elapsed-seconds formula, written exactly as the claim states
it (for comparison with both branches of `calculate_match_clock`):
`base_minutes*60 + (frame - period_start_frame)/fps`, floored at zero. -/
def claimClockSeconds (frame period : ℤ) (starts : List (ℤ × ℤ))
    (fps : ℚ) : ℚ :=
  let base : ℚ := if period = 1 then 0 else if period = 2 then 45 else 0
  max 0 (base * 60 + ((frame - (starts.lookup period).getD 0 : ℤ) : ℚ) / fps)

end MatchClock

noncomputable section Kinematics

/-- `MAX_VELOCITY_KMH` from `src/config.py`. -/
def MAX_VELOCITY_KMH : ℝ := 42

/-- `VELOCITY_ANOMALY_THRESHOLD` from `src/config.py`. -/
def VELOCITY_ANOMALY_THRESHOLD : ℝ := 45

/-- The position-smoothing stage of `extract_player_data`
(`src/preprocessing/data.py`): with `smooth=True`, gap-aware smoothing with
the default threshold 0.2s, window 7 and order 2 when the track has more than
5 rows, otherwise the raw column. -/
def smoothedPosition (t pos : List ℝ) : List ℝ :=
  if 5 < t.length then apply_gap_aware_smoothing pos t 0.2 7 2 else pos

/-- The raw speed series of `extract_player_data`:
`sqrt(vx**2 + vy**2)` with `vx = np.gradient(x_smooth, t)` and
`vy = np.gradient(y_smooth, t)`. -/
def rawSpeeds (t x y : List ℝ) : List ℝ :=
  List.zipWith (fun vx vy => Real.sqrt (vx ^ 2 + vy ^ 2))
    (npGradient (smoothedPosition t x) t) (npGradient (smoothedPosition t y) t)

/-- `np.sum(speed_ms > anomaly_ms)`: the number of raw speed samples above the
anomaly threshold, which `extract_player_data` logs (and does not drop). -/
def anomalyCount (t x y : List ℝ) : Nat :=
  ((rawSpeeds t x y).filter
    (fun s => decide (VELOCITY_ANOMALY_THRESHOLD / 3.6 < s))).length

/-- The `velocity_raw` column of `extract_player_data`:
`np.clip(speed_ms, 0, max_ms)` with `max_ms = MAX_VELOCITY_KMH / 3.6`. -/
def velocity_raw (t x y : List ℝ) : List ℝ :=
  (rawSpeeds t x y).map (fun s => min (max s 0) (MAX_VELOCITY_KMH / 3.6))

/-- The `velocity` column of `extract_player_data`: the clamped speed series
re-smoothed gap-aware with threshold 0.2s, window 5, order 2 when the track
has more than 5 rows, otherwise the clamped series itself. -/
def velocity_col (t x y : List ℝ) : List ℝ :=
  if 5 < t.length then apply_gap_aware_smoothing (velocity_raw t x y) t 0.2 5 2
  else velocity_raw t x y

/-- The `velocity_kmh` column of `extract_player_data`: `velocity * 3.6`. -/
def velocity_kmh (t x y : List ℝ) : List ℝ :=
  (velocity_col t x y).map (fun v => v * 3.6)

end Kinematics

noncomputable section Features

/-- `calculate_velocity` from `src/utils/physics.py` with `timestamps=None`
(the path `calculate_distance_metrics` uses): per-step displacement divided by
the constant `dt = 1.0 / fps`, times 3.6 for km/h. -/
def calculate_velocity (x y : List ℝ) (fps : ℝ) (unit : String) : List ℝ :=
  let base := List.zipWith
    (fun dx dy => Real.sqrt (dx ^ 2 + dy ^ 2) / (1 / fps)) (npDiff x) (npDiff y)
  if unit = "km/h" then base.map (fun v => v * 3.6) else base

/-- `segment_distances` in `calculate_distance_metrics`
(`src/preprocessing/features.py`): per-step displacements
`sqrt(dx**2 + dy**2)`. -/
def segmentDistances (x y : List ℝ) : List ℝ :=
  List.zipWith (fun dx dy => Real.sqrt (dx ^ 2 + dy ^ 2)) (npDiff x) (npDiff y)

/-- The three masked distance sums of `calculate_distance_metrics`, as a
function of the step-distance and per-step velocity series: steps above
`MAX_STEP_DISTANCE = 5.0` are zeroed (`filtered_distances[~valid_mask] = 0`),
and the sprint/HSR sums add the filtered distances under
`velocity > 25` / `velocity > 20` conjoined with the validity mask. -/
def distanceSums (sd v : List ℝ) : ℝ × ℝ × ℝ :=
  ((sd.map (fun d => if d ≤ 5 then d else 0)).sum,
   (List.zipWith (fun d w => if 25 < w ∧ d ≤ 5 then d else 0) sd v).sum,
   (List.zipWith (fun d w => if 20 < w ∧ d ≤ 5 then d else 0) sd v).sum)

/-- The result record of `calculate_distance_metrics`. -/
structure DistanceMetrics where
  total_distance : ℝ
  sprint_distance : ℝ
  hsr_distance : ℝ
  max_speed : ℝ
  avg_speed : ℝ

/-- `calculate_distance_metrics` from `src/preprocessing/features.py`:
velocities in km/h at the given fps, step distances screened at 5.0 m,
max/avg speed over the velocities surviving the 38 km/h screen (zero when
none survive, the guard that makes the empty track return zeros). -/
def calculate_distance_metrics (x y : List ℝ) (fps : ℝ) : DistanceMetrics :=
  let velocityKmh := calculate_velocity x y fps "km/h"
  let sd := segmentDistances x y
  let sums := distanceSums sd velocityKmh
  let validVelocities := velocityKmh.filter (fun w => decide (w ≤ 38))
  { total_distance := sums.1
    sprint_distance := sums.2.1
    hsr_distance := sums.2.2
    max_speed := if 0 < validVelocities.length then npMax validVelocities else 0
    avg_speed :=
      if 0 < validVelocities.length then
        validVelocities.sum / (validVelocities.length : ℝ)
      else 0 }

end Features

section Helpers

lemma le_getLastD_of_chain :
    ∀ {l : List Nat} {a : Nat}, List.Chain (· ≤ ·) a l → a ≤ l.getLastD a
  | [], _, _ => le_refl _
  | b :: t, a, h => by
      rcases List.chain_cons.mp h with ⟨hab, ht⟩
      calc a ≤ b := hab
        _ ≤ t.getLastD b := le_getLastD_of_chain ht
        _ = (b :: t).getLastD a := (List.getLastD_cons ..).symm

lemma chain_le_of_forall_le :
    ∀ {l : List Nat} {a : Nat}, (∀ b ∈ l, a ≤ b) → l.Pairwise (· ≤ ·) →
      List.Chain (· ≤ ·) a l
  | [], _, _, _ => List.Chain.nil
  | b :: t, a, hall, hp => by
      rcases List.pairwise_cons.mp hp with ⟨hb, ht⟩
      exact List.Chain.cons (hall b (by simp))
        (chain_le_of_forall_le (fun c hc => hb c hc) ht)

variable {α : Type} [LinearOrderedField α]

lemma length_savgolFilter (data : List α) (w o : Nat) :
    (savgolFilter data w o).length = data.length := by
  simp [savgolFilter]

lemma length_safe_savgol (data : List α) (w o : Nat) :
    (safe_savgol data w o).length = data.length := by
  simp only [safe_savgol]
  split_ifs <;> simp [length_savgolFilter]

lemma length_processSegment (seg : List α) (w o : Nat) :
    (processSegment seg w o).length = seg.length := by
  simp only [processSegment]
  split_ifs <;> simp [length_safe_savgol]

omit [LinearOrderedField α] in
lemma flatten_splitAtIndices (vals : List α) :
    ∀ (bounds : List Nat) (start : Nat), List.Chain (· ≤ ·) start bounds →
      (splitAtIndices vals bounds start).flatten
        = (vals.drop start).take (bounds.getLastD start - start)
  | [], start, _ => by simp [splitAtIndices]
  | b :: rest, start, h => by
      rcases List.chain_cons.mp h with ⟨hab, ht⟩
      have hbL : b ≤ rest.getLastD b := le_getLastD_of_chain ht
      have ih := flatten_splitAtIndices vals rest b ht
      simp only [splitAtIndices, List.flatten_cons, ih, List.getLastD_cons]
      have hsum : rest.getLastD b - start = (b - start) + (rest.getLastD b - b) := by
        omega
      rw [hsum, List.take_add]
      congr 2
      rw [List.drop_drop]
      congr 1
      omega

lemma gapSplits_sorted (ts : List α) (maxGap : α) :
    (gapSplits ts maxGap).Pairwise (· < ·) :=
  (List.pairwise_lt_range _).filter _

lemma gapSplits_mem_lt {ts : List α} {maxGap : α} {i : Nat}
    (h : i ∈ gapSplits ts maxGap) : i < ts.length := by
  have := List.mem_filter.mp h
  exact List.mem_range.mp this.1

end Helpers

/-- C9 counterexample: with an unknown period 3, an empty period-start mapping
and fps 10, the scalar match-clock mapper returns "45:10" (period-2-style base
offset of 45 minutes), not the "00:10" that period-1 treatment would give. -/
theorem c9_counterexample :
    calculate_match_clock_scalar 100 3 [] 10 = "45:10"
    ∧ calculate_match_clock_scalar 100 1 [] 10 = "00:10"
    ∧ ("45:10" : String) ≠ "00:10" := by
  refine ⟨?_, ?_, by decide⟩ <;>
    · simp only [calculate_match_clock_scalar, List.lookup]
      norm_num
      rfl

/-- C9 (amended): a period identifier other than 1 is given the period-2 base
offset of 45 minutes by the scalar match-clock mapper, with the start frame
looked up in the mapping (default 0), so an unknown period behaves exactly
like period 2 whenever the mapping treats the two alike; the vectorized
mapper instead gives an unknown period base 0 and start-frame 0.  Both return
a valid elapsed time rather than raising. -/
theorem c9_unknown_period_amended (frame p : ℤ) (starts : List (ℤ × ℤ))
    (fps : ℚ) (hp1 : p ≠ 1) (hl : starts.lookup p = starts.lookup 2) :
    calculate_match_clock_scalar frame p starts fps
      = calculate_match_clock_scalar frame 2 starts fps
    ∧ (p ≠ 2 →
        calculate_match_clock_vector [frame] [p] starts fps
          = [((frame : ℚ)) / fps]) := by
  constructor
  · simp only [calculate_match_clock_scalar, hl, hp1, if_false]
    norm_num
  · intro hp2
    simp only [calculate_match_clock_vector, List.zipWith, hp1, hp2, if_false]
    norm_num

/-- Closed witness for `c9_unknown_period_amended` at frame 100, period 3,
empty mapping, fps 10. -/
theorem c9_unknown_period_amended_witness :
    ((3 : ℤ) ≠ 1)
    ∧ calculate_match_clock_scalar 100 3 [] 10
        = calculate_match_clock_scalar 100 2 [] 10 := by
  refine ⟨by decide, (c9_unknown_period_amended 100 3 [] 10 (by decide) rfl).1⟩

/-- C8 counterexample: at frame 0 of period 1 with period 1 starting at frame
100 and fps 10, the vectorized match-clock mapper returns -10 seconds while
the claim's formula (floored at zero) gives 0, and the scalar mapper renders
"00:00"; the two invocations do not share the claimed floored semantics. -/
theorem c8_counterexample :
    calculate_match_clock_vector [0] [1] [(1, 100)] 10 = [-10]
    ∧ claimClockSeconds 0 1 [(1, 100)] 10 = 0
    ∧ calculate_match_clock_scalar 0 1 [(1, 100)] 10 = "00:00"
    ∧ ((-10 : ℚ) ≠ 0) := by
  refine ⟨?_, ?_, ?_, by decide⟩
  case refine_2 =>
    simp only [claimClockSeconds, List.lookup]
    norm_num
  · simp only [calculate_match_clock_vector, List.zipWith, List.lookup]
    norm_num
  · simp only [calculate_match_clock_scalar, List.lookup]
    norm_num
    rfl

/-- Dividing before or after taking the floor agrees for the positive
divisor 60 (the minute conversion in the match clock). -/
lemma floor_div_sixty (a : ℚ) : ⌊a / 60⌋ = ⌊a⌋ / 60 := by
  have hm := Int.floor_le a
  have hm1 := Int.lt_floor_add_one a
  have h60 : (0 : ℚ) < 60 := by norm_num
  have hq1 : 60 * (⌊a⌋ / 60) ≤ ⌊a⌋ := by omega
  have hq2 : ⌊a⌋ < 60 * (⌊a⌋ / 60) + 60 := by omega
  refine Int.floor_eq_iff.mpr ⟨?_, ?_⟩
  · rw [le_div_iff₀ h60]
    calc ((⌊a⌋ / 60 : ℤ) : ℚ) * 60 = ((60 * (⌊a⌋ / 60) : ℤ) : ℚ) := by push_cast; ring
      _ ≤ (⌊a⌋ : ℚ) := by exact_mod_cast hq1
      _ ≤ a := hm
  · rw [div_lt_iff₀ h60]
    calc a < (⌊a⌋ : ℚ) + 1 := hm1
      _ ≤ (((⌊a⌋ / 60 : ℤ) : ℚ) + 1) * 60 := by
          have : (⌊a⌋ : ℚ) + 1 ≤ ((60 * (⌊a⌋ / 60) + 60 : ℤ) : ℚ) := by exact_mod_cast hq2
          calc (⌊a⌋ : ℚ) + 1 ≤ ((60 * (⌊a⌋ / 60) + 60 : ℤ) : ℚ) := this
            _ = (((⌊a⌋ / 60 : ℤ) : ℚ) + 1) * 60 := by push_cast; ring

/-- The floored remainder term of the scalar match clock is the integer
remainder modulo 60. -/
lemma floor_rem_sixty (a : ℚ) : ⌊a - 60 * (⌊a / 60⌋ : ℚ)⌋ = ⌊a⌋ % 60 := by
  rw [floor_div_sixty]
  rw [show (60 : ℚ) * ((⌊a⌋ / 60 : ℤ) : ℚ) = ((60 * (⌊a⌋ / 60) : ℤ) : ℚ) by push_cast; ring]
  rw [Int.floor_sub_int]
  omega

/-- C8 (amended): for periods 1 and 2, a positive fps and a frame at or after
the period's start frame, the scalar and vectorized match-clock invocations
agree with the claimed elapsed-seconds formula
`base_minutes*60 + (frame - start)/fps` (the zero-floor being inert there):
the vectorized call returns exactly those seconds and the scalar call renders
their floor as the zero-padded minutes/seconds pair.  Outside these
conditions the two differ: the vectorized path applies no flooring at zero
(see the counterexample). -/
theorem c8_clock_amended (frame period : ℤ) (starts : List (ℤ × ℤ)) (fps : ℚ)
    (hp : period = 1 ∨ period = 2) (hfps : 0 < fps)
    (hge : (starts.lookup period).getD 0 ≤ frame) :
    calculate_match_clock_vector [frame] [period] starts fps
      = [claimClockSeconds frame period starts fps]
    ∧ calculate_match_clock_scalar frame period starts fps
      = pad2 (⌊claimClockSeconds frame period starts fps⌋ / 60).toNat ++ ":"
        ++ pad2 (⌊claimClockSeconds frame period starts fps⌋ % 60).toNat := by
  have he : (0 : ℚ) ≤ ((frame : ℚ) - (((starts.lookup period).getD 0 : ℤ) : ℚ)) / fps := by
    apply div_nonneg _ hfps.le
    have h : (((starts.lookup period).getD 0 : ℤ) : ℚ) ≤ (frame : ℚ) := by
      exact_mod_cast hge
    linarith
  have hscalar : calculate_match_clock_scalar frame period starts fps
      = pad2 ((if period = 1 then 0 else 45)
            + ⌊((frame : ℚ) - (((starts.lookup period).getD 0 : ℤ) : ℚ)) / fps⌋ / 60).toNat
        ++ ":"
        ++ pad2 (⌊((frame : ℚ) - (((starts.lookup period).getD 0 : ℤ) : ℚ)) / fps⌋ % 60).toNat := by
    simp only [calculate_match_clock_scalar]
    push_cast
    rw [max_eq_right he, floor_rem_sixty, floor_div_sixty]
  rcases hp with hp | hp <;> subst hp
  · have hC : claimClockSeconds frame 1 starts fps
        = ((frame : ℚ) - (((starts.lookup (1 : ℤ)).getD 0 : ℤ) : ℚ)) / fps := by
      simp only [claimClockSeconds]
      norm_num
      exact he
    refine ⟨?_, ?_⟩
    · rw [hC]
      simp only [calculate_match_clock_vector, List.zipWith]
      norm_num
    · rw [hscalar, hC]
      norm_num
  · have hC : claimClockSeconds frame 2 starts fps
        = 2700 + ((frame : ℚ) - (((starts.lookup (2 : ℤ)).getD 0 : ℤ) : ℚ)) / fps := by
      simp only [claimClockSeconds]
      norm_num
      linarith
    have hfl : ⌊(2700 : ℚ)
          + ((frame : ℚ) - (((starts.lookup (2 : ℤ)).getD 0 : ℤ) : ℚ)) / fps⌋
        = 2700 + ⌊((frame : ℚ) - (((starts.lookup (2 : ℤ)).getD 0 : ℤ) : ℚ)) / fps⌋ := by
      rw [show (2700 : ℚ) = ((2700 : ℤ) : ℚ) by norm_num, Int.floor_int_add]
    refine ⟨?_, ?_⟩
    · rw [hC]
      simp only [calculate_match_clock_vector, List.zipWith]
      norm_num
    · rw [hscalar, hC, hfl]
      norm_num
      have h1 : (45 + ⌊((frame : ℚ) - (((starts.lookup (2 : ℤ)).getD 0 : ℤ) : ℚ)) / fps⌋ / 60).toNat
          = ((2700 + ⌊((frame : ℚ) - (((starts.lookup (2 : ℤ)).getD 0 : ℤ) : ℚ)) / fps⌋) / 60).toNat := by
        omega
      have h2 : (⌊((frame : ℚ) - (((starts.lookup (2 : ℤ)).getD 0 : ℤ) : ℚ)) / fps⌋ % 60).toNat
          = ((2700 + ⌊((frame : ℚ) - (((starts.lookup (2 : ℤ)).getD 0 : ℤ) : ℚ)) / fps⌋) % 60).toNat := by
        omega
      rw [h1, h2]

/-- Closed witness for `c8_clock_amended` at frame 150, period 2, start frame
100 for period 2, fps 10. -/
theorem c8_clock_amended_witness :
    ((0 : ℚ) < 10)
    ∧ ((([((2 : ℤ), (100 : ℤ))] : List (ℤ × ℤ)).lookup 2).getD 0 ≤ 150)
    ∧ calculate_match_clock_vector [150] [2] [(2, 100)] 10
        = [claimClockSeconds 150 2 [(2, 100)] 10] := by
  refine ⟨by decide, by decide,
    (c8_clock_amended 150 2 [(2, 100)] 10 (Or.inr rfl) (by decide) (by decide)).1⟩

section MinMaxHelpers

variable {α : Type} [LinearOrder α]

lemma foldl_max_le_iff (l : List α) (a c : α) :
    l.foldl max a ≤ c ↔ a ≤ c ∧ ∀ x ∈ l, x ≤ c := by
  induction l generalizing a with
  | nil => simp
  | cons b t ih =>
      simp only [List.foldl_cons, ih, max_le_iff, List.mem_cons]
      constructor
      · rintro ⟨⟨h1, h2⟩, h3⟩
        exact ⟨h1, fun x hx => hx.elim (fun hx => hx ▸ h2) (h3 x)⟩
      · rintro ⟨h1, h2⟩
        exact ⟨⟨h1, h2 b (Or.inl rfl)⟩, fun x hx => h2 x (Or.inr hx)⟩

lemma le_foldl_min_iff (l : List α) (a c : α) :
    c ≤ l.foldl min a ↔ c ≤ a ∧ ∀ x ∈ l, c ≤ x := by
  induction l generalizing a with
  | nil => simp
  | cons b t ih =>
      simp only [List.foldl_cons, ih, le_min_iff, List.mem_cons]
      constructor
      · rintro ⟨⟨h1, h2⟩, h3⟩
        exact ⟨h1, fun x hx => hx.elim (fun hx => hx ▸ h2) (h3 x)⟩
      · rintro ⟨h1, h2⟩
        exact ⟨⟨h1, h2 b (Or.inl rfl)⟩, fun x hx => h2 x (Or.inr hx)⟩

end MinMaxHelpers

section MinMaxFieldHelpers

variable {α : Type} [LinearOrderedField α]

lemma npMax_le_iff {l : List α} (hl : l ≠ []) (c : α) :
    npMax l ≤ c ↔ ∀ x ∈ l, x ≤ c := by
  cases l with
  | nil => exact absurd rfl hl
  | cons a t =>
      simp only [npMax, foldl_max_le_iff, List.mem_cons]
      constructor
      · rintro ⟨h1, h2⟩
        exact fun x hx => hx.elim (fun hx => hx ▸ h1) (h2 x)
      · intro h
        exact ⟨h a (Or.inl rfl), fun x hx => h x (Or.inr hx)⟩

lemma le_npMin_iff {l : List α} (hl : l ≠ []) (c : α) :
    c ≤ npMin l ↔ ∀ x ∈ l, c ≤ x := by
  cases l with
  | nil => exact absurd rfl hl
  | cons a t =>
      simp only [npMin, le_foldl_min_iff, List.mem_cons]
      constructor
      · rintro ⟨h1, h2⟩
        exact fun x hx => hx.elim (fun hx => hx ▸ h1) (h2 x)
      · intro h
        exact ⟨h a (Or.inl rfl), fun x hx => h x (Or.inr hx)⟩

lemma npMax_abs_le_iff {l : List α} (hl : l ≠ []) (c : α) :
    npMax (l.map (fun v => |v|)) ≤ c ↔ (npMax l ≤ c ∧ -c ≤ npMin l) := by
  have hml : l.map (fun v => |v|) ≠ [] := by
    simpa using hl
  rw [npMax_le_iff hml, npMax_le_iff hl, le_npMin_iff hl]
  constructor
  · intro h
    constructor
    · intro u hu
      exact (abs_le.mp (h _ (List.mem_map_of_mem _ hu))).2
    · intro u hu
      exact (abs_le.mp (h _ (List.mem_map_of_mem _ hu))).1
  · rintro ⟨h1, h2⟩ v hv
    obtain ⟨u, hu, rfl⟩ := List.mem_map.mp hv
    exact abs_le.mpr ⟨h2 u hu, h1 u hu⟩

end MinMaxFieldHelpers

lemma tpmX_zero_one : (fun v : ℚ => tpmX v "0_1") = fun v => v * 105 - 52.5 := by
  funext v
  rw [tpmX, if_neg (by decide : ¬("0_1" : String) = "skillcorner"), if_pos rfl]
  norm_num [PITCH_LENGTH, HALF_PITCH_LENGTH]

lemma tpmY_zero_one : (fun v : ℚ => tpmY v "0_1") = fun v => v * 68 - 34 := by
  funext v
  rw [tpmY, if_neg (by decide : ¬("0_1" : String) = "skillcorner"), if_pos rfl]
  norm_num [PITCH_WIDTH, HALF_PITCH_WIDTH]

lemma tpmX_percent :
    (fun v : ℚ => tpmX v "0_100") = fun v => v / 100 * 105 - 52.5 := by
  funext v
  rw [tpmX, if_neg (by decide : ¬("0_100" : String) = "skillcorner"),
    if_neg (by decide : ¬("0_100" : String) = "0_1"), if_pos rfl]
  norm_num [PITCH_LENGTH, HALF_PITCH_LENGTH]

lemma tpmY_percent :
    (fun v : ℚ => tpmY v "0_100") = fun v => v / 100 * 68 - 34 := by
  funext v
  rw [tpmY, if_neg (by decide : ¬("0_100" : String) = "skillcorner"),
    if_neg (by decide : ¬("0_100" : String) = "0_1"), if_pos rfl]
  norm_num [PITCH_WIDTH, HALF_PITCH_WIDTH]

lemma tpmX_meters : (fun v : ℚ => tpmX v "skillcorner_meters") = fun v => v := by
  funext v
  rw [tpmX, if_neg (by decide : ¬("skillcorner_meters" : String) = "skillcorner"),
    if_neg (by decide : ¬("skillcorner_meters" : String) = "0_1"),
    if_neg (by decide : ¬("skillcorner_meters" : String) = "0_100")]

lemma tpmY_meters : (fun v : ℚ => tpmY v "skillcorner_meters") = fun v => v := by
  funext v
  rw [tpmY, if_neg (by decide : ¬("skillcorner_meters" : String) = "skillcorner"),
    if_neg (by decide : ¬("skillcorner_meters" : String) = "0_1"),
    if_neg (by decide : ¬("skillcorner_meters" : String) = "0_100")]

/-- C2 counterexample: for `x = [-0.5, 1]`, `y = [0, 1]` the claim's precedence
classifies the track as percentage (`max(|x|) <= 110`, mins `>= -1`, and not
unit-square because `min(x) < 0`), but the code's percentage branch also
requires `max_x > 1.5 or max_y > 1.5` and therefore falls through to
pitch-meters. -/
theorem c2_counterexample :
    (infer_and_scale_coordinates [some (-1/2), some 1] [some 0, some 1]).2.2
      = "skillcorner_meters"
    ∧ claimInferredSystem [some (-1/2), some 1] [some 0, some 1] = "0_100"
    ∧ ("skillcorner_meters" : String) ≠ "0_100" := by
  have hfx : List.filterMap id [some (-1/2 : ℚ), some 1] = [-1/2, 1] := rfl
  have hfy : List.filterMap id [some (0 : ℚ), some 1] = [0, 1] := rfl
  have hmaxx : npMax [(-1/2 : ℚ), 1] = 1 := by
    simp [npMax, max_def]
    norm_num
  have hminx : npMin [(-1/2 : ℚ), 1] = -1/2 := by
    simp [npMin, min_def]
    norm_num
  have hmaxy : npMax [(0 : ℚ), 1] = 1 := by
    simp [npMax, max_def]
  have hminy : npMin [(0 : ℚ), 1] = 0 := by
    simp [npMin, min_def]
  have habs1 : |(-1/2 : ℚ)| = 1/2 := by
    rw [abs_of_nonpos (by norm_num)]
    norm_num
  have hmaxxa : npMax (([(-1/2 : ℚ), 1]).map (fun v => |v|)) = 1 := by
    simp only [List.map, habs1, abs_one]
    norm_num [npMax, max_def]
  have hmaxya : npMax (([(0 : ℚ), 1]).map (fun v => |v|)) = 1 := by
    simp only [List.map, abs_zero, abs_one]
    norm_num [npMax, max_def]
  refine ⟨?_, ?_, by decide⟩
  · simp only [infer_and_scale_coordinates, hfx, hfy, hmaxx, hminx, hmaxy, hminy]
    rw [if_neg (by norm_num), if_neg (by norm_num), if_neg (by norm_num)]
  · simp only [claimInferredSystem, hfx, hfy, hmaxxa, hmaxya, hminx, hminy]
    rw [if_neg (by norm_num), if_pos (by norm_num)]

/-- C2 (amended): on inputs with at least one non-missing value in each
coordinate array, the normalizer classifies unit-square exactly under the
claim's conditions; it classifies percentage exactly under the claim's
conditions PLUS the additional code guard `max(x) > 1.5 or max(y) > 1.5`
(so small-range data with a negative coordinate falls through to
pitch-meters); and it rescales by exactly the claimed affine maps
(unit-square `x*105 - 52.5`, `y*68 - 34`; percentage `x/100*105 - 52.5`,
`y/100*68 - 34`; pitch-meters passed through unchanged). -/
theorem c2_coordinate_inference_amended (x y : List (Option ℚ))
    (hx : x.filterMap id ≠ []) (hy : y.filterMap id ≠ []) :
    ((infer_and_scale_coordinates x y).2.2 = "0_1"
      ↔ claimInferredSystem x y = "0_1")
    ∧ ((infer_and_scale_coordinates x y).2.2 = "0_100"
      ↔ (claimInferredSystem x y = "0_100"
          ∧ (1.5 < npMax (x.filterMap id) ∨ 1.5 < npMax (y.filterMap id))))
    ∧ ((infer_and_scale_coordinates x y).2.2 = "0_1" →
        (infer_and_scale_coordinates x y).1
          = x.map (Option.map (fun v => v * 105 - 52.5))
        ∧ (infer_and_scale_coordinates x y).2.1
          = y.map (Option.map (fun v => v * 68 - 34)))
    ∧ ((infer_and_scale_coordinates x y).2.2 = "0_100" →
        (infer_and_scale_coordinates x y).1
          = x.map (Option.map (fun v => v / 100 * 105 - 52.5))
        ∧ (infer_and_scale_coordinates x y).2.1
          = y.map (Option.map (fun v => v / 100 * 68 - 34)))
    ∧ ((infer_and_scale_coordinates x y).2.2 = "skillcorner_meters" →
        (infer_and_scale_coordinates x y).1 = x
        ∧ (infer_and_scale_coordinates x y).2.1 = y) := by
  have hlen0 : ¬(x.filterMap id).length = 0 := by
    simpa [List.length_eq_zero] using hx
  have hAiff : (npMax (x.filterMap id) ≤ 1.5 ∧ npMax (y.filterMap id) ≤ 1.5 ∧
        0 ≤ npMin (x.filterMap id) ∧ 0 ≤ npMin (y.filterMap id))
      ↔ (npMax ((x.filterMap id).map (fun v => |v|)) ≤ 1.5 ∧
          npMax ((y.filterMap id).map (fun v => |v|)) ≤ 1.5 ∧
          0 ≤ npMin (x.filterMap id) ∧ 0 ≤ npMin (y.filterMap id)) := by
    rw [npMax_abs_le_iff hx, npMax_abs_le_iff hy]
    constructor
    · rintro ⟨h1, h2, h3, h4⟩
      exact ⟨⟨h1, by linarith⟩, ⟨h2, by linarith⟩, h3, h4⟩
    · rintro ⟨⟨h1, _⟩, ⟨h2, _⟩, h3, h4⟩
      exact ⟨h1, h2, h3, h4⟩
  have hBiff : (npMax (x.filterMap id) ≤ 110 ∧ npMax (y.filterMap id) ≤ 110 ∧
        (1.5 < npMax (x.filterMap id) ∨ 1.5 < npMax (y.filterMap id)) ∧
        -1 ≤ npMin (x.filterMap id) ∧ -1 ≤ npMin (y.filterMap id))
      ↔ ((npMax ((x.filterMap id).map (fun v => |v|)) ≤ 110 ∧
          npMax ((y.filterMap id).map (fun v => |v|)) ≤ 110 ∧
          -1 ≤ npMin (x.filterMap id) ∧ -1 ≤ npMin (y.filterMap id)) ∧
          (1.5 < npMax (x.filterMap id) ∨ 1.5 < npMax (y.filterMap id))) := by
    rw [npMax_abs_le_iff hx, npMax_abs_le_iff hy]
    constructor
    · rintro ⟨h1, h2, h3, h4, h5⟩
      exact ⟨⟨⟨h1, by linarith⟩, ⟨h2, by linarith⟩, h4, h5⟩, h3⟩
    · rintro ⟨⟨⟨h1, _⟩, ⟨h2, _⟩, h4, h5⟩, h3⟩
      exact ⟨h1, h2, h3, h4, h5⟩
  by_cases hA : npMax (x.filterMap id) ≤ 1.5 ∧ npMax (y.filterMap id) ≤ 1.5 ∧
      0 ≤ npMin (x.filterMap id) ∧ 0 ≤ npMin (y.filterMap id)
  · have hinfer : infer_and_scale_coordinates x y
        = (x.map (Option.map (fun v => tpmX v "0_1")),
           y.map (Option.map (fun v => tpmY v "0_1")), "0_1") := by
      simp only [infer_and_scale_coordinates, to_pitch_meters]
      rw [if_neg hlen0, if_pos hA]
    have h22 : (infer_and_scale_coordinates x y).2.2 = "0_1" := by rw [hinfer]
    have h1c : (infer_and_scale_coordinates x y).1
        = x.map (Option.map (fun v => tpmX v "0_1")) := by rw [hinfer]
    have h21 : (infer_and_scale_coordinates x y).2.1
        = y.map (Option.map (fun v => tpmY v "0_1")) := by rw [hinfer]
    have hclaim : claimInferredSystem x y = "0_1" := by
      simp only [claimInferredSystem]
      rw [if_pos (hAiff.mp hA)]
    refine ⟨?_, ?_, ?_, ?_, ?_⟩
    · rw [h22, hclaim]
    · rw [h22, hclaim]
      constructor
      · intro h
        exact absurd h (by decide)
      · rintro ⟨h, -⟩
        exact absurd h (by decide)
    · intro _
      rw [h1c, h21, tpmX_zero_one, tpmY_zero_one]
      exact ⟨rfl, rfl⟩
    · intro h
      rw [h22] at h
      exact absurd h (by decide)
    · intro h
      rw [h22] at h
      exact absurd h (by decide)
  · by_cases hB : npMax (x.filterMap id) ≤ 110 ∧ npMax (y.filterMap id) ≤ 110 ∧
        (1.5 < npMax (x.filterMap id) ∨ 1.5 < npMax (y.filterMap id)) ∧
        -1 ≤ npMin (x.filterMap id) ∧ -1 ≤ npMin (y.filterMap id)
    · have hinfer : infer_and_scale_coordinates x y
          = (x.map (Option.map (fun v => tpmX v "0_100")),
             y.map (Option.map (fun v => tpmY v "0_100")), "0_100") := by
        simp only [infer_and_scale_coordinates, to_pitch_meters]
        rw [if_neg hlen0, if_neg hA, if_pos hB]
      have h22 : (infer_and_scale_coordinates x y).2.2 = "0_100" := by rw [hinfer]
      have h1c : (infer_and_scale_coordinates x y).1
          = x.map (Option.map (fun v => tpmX v "0_100")) := by rw [hinfer]
      have h21 : (infer_and_scale_coordinates x y).2.1
          = y.map (Option.map (fun v => tpmY v "0_100")) := by rw [hinfer]
      have hclaim : claimInferredSystem x y = "0_100" := by
        simp only [claimInferredSystem]
        rw [if_neg (fun hc => hA (hAiff.mpr hc)), if_pos (hBiff.mp hB).1]
      refine ⟨?_, ?_, ?_, ?_, ?_⟩
      · rw [h22, hclaim]
      · rw [h22, hclaim]
        constructor
        · intro _
          exact ⟨rfl, (hBiff.mp hB).2⟩
        · intro _
          rfl
      · intro h
        rw [h22] at h
        exact absurd h (by decide)
      · intro _
        rw [h1c, h21, tpmX_percent, tpmY_percent]
        exact ⟨rfl, rfl⟩
      · intro h
        rw [h22] at h
        exact absurd h (by decide)
    · have hinfer : infer_and_scale_coordinates x y
          = (x.map (Option.map (fun v => tpmX v "skillcorner_meters")),
             y.map (Option.map (fun v => tpmY v "skillcorner_meters")),
             "skillcorner_meters") := by
        simp only [infer_and_scale_coordinates, to_pitch_meters]
        rw [if_neg hlen0, if_neg hA, if_neg hB]
      have h22 : (infer_and_scale_coordinates x y).2.2 = "skillcorner_meters" := by
        rw [hinfer]
      have h1c : (infer_and_scale_coordinates x y).1
          = x.map (Option.map (fun v => tpmX v "skillcorner_meters")) := by
        rw [hinfer]
      have h21 : (infer_and_scale_coordinates x y).2.1
          = y.map (Option.map (fun v => tpmY v "skillcorner_meters")) := by
        rw [hinfer]
      have hclaimne1 : claimInferredSystem x y ≠ "0_1" := by
        intro hc
        apply hA
        apply hAiff.mpr
        simp only [claimInferredSystem] at hc
        by_cases hc1 : npMax ((x.filterMap id).map (fun v => |v|)) ≤ 1.5 ∧
            npMax ((y.filterMap id).map (fun v => |v|)) ≤ 1.5 ∧
            0 ≤ npMin (x.filterMap id) ∧ 0 ≤ npMin (y.filterMap id)
        · exact hc1
        · rw [if_neg hc1] at hc
          split_ifs at hc <;> exact absurd hc (by decide)
      refine ⟨?_, ?_, ?_, ?_, ?_⟩
      · rw [h22]
        constructor
        · intro h
          exact absurd h (by decide)
        · intro hc
          exact absurd hc hclaimne1
      · rw [h22]
        constructor
        · intro h
          exact absurd h (by decide)
        · rintro ⟨hc, hextra⟩
          exfalso
          simp only [claimInferredSystem] at hc
          split_ifs at hc with hc1 hc2
          · exact absurd hc (by decide)
          · exact hB (hBiff.mpr ⟨hc2, hextra⟩)
          · exact absurd hc (by decide)
      · intro h
        rw [h22] at h
        exact absurd h (by decide)
      · intro h
        rw [h22] at h
        exact absurd h (by decide)
      · intro _
        rw [h1c, h21, tpmX_meters, tpmY_meters]
        constructor <;> simp

/-- Closed witness for `c2_coordinate_inference_amended` at
`x = [50, NaN]`, `y = [30]` (pitch-meters data). -/
theorem c2_coordinate_inference_amended_witness :
    (([some (50 : ℚ), none] : List (Option ℚ)).filterMap id ≠ [])
    ∧ (([some (30 : ℚ)] : List (Option ℚ)).filterMap id ≠ [])
    ∧ ((infer_and_scale_coordinates [some 50, none] [some 30]).2.2 = "0_1"
        ↔ claimInferredSystem [some 50, none] [some 30] = "0_1") :=
  ⟨by simp, by simp,
    (c2_coordinate_inference_amended [some 50, none] [some 30]
      (by simp) (by simp)).1⟩

/-- C10: when a track's x-values have a 99th percentile below 1.2, the
rescaling step of `extract_player_data` multiplies x by 105.0 and y by 68.0
with no half-pitch offset subtraction, so unit-square coordinates land in the
corner-origin box `[0,105] x [0,68]`, offset by exactly
`(HALF_PITCH_LENGTH, HALF_PITCH_WIDTH)` from the centered pitch-meters frame
the coordinate normalizer (`to_pitch_meters` with system `"0_1"`) produces. -/
theorem c10_normalized_scaling (x y : List ℚ) (hne : x ≠ [])
    (hq : pdQuantile x (99/100) < 6/5) :
    extractScaleStep x y
      = (x.map (fun v => v * 105), y.map (fun v => v * 68))
    ∧ (∀ a ∈ x, 0 ≤ a → a ≤ 1 → 0 ≤ a * 105 ∧ a * 105 ≤ 105)
    ∧ (∀ b ∈ y, 0 ≤ b → b ≤ 1 → 0 ≤ b * 68 ∧ b * 68 ≤ 68)
    ∧ (∀ a : ℚ, a * 105 = tpmX a "0_1" + HALF_PITCH_LENGTH)
    ∧ (∀ b : ℚ, b * 68 = tpmY b "0_1" + HALF_PITCH_WIDTH) := by
  refine ⟨?_, ?_, ?_, ?_, ?_⟩
  · rw [extractScaleStep, if_pos ⟨hne, hq⟩]
  · intro a _ h0 h1
    constructor
    · positivity
    · nlinarith
  · intro b _ h0 h1
    constructor
    · positivity
    · nlinarith
  · intro a
    rw [tpmX, if_neg (by decide : ¬("0_1" : String) = "skillcorner"), if_pos rfl]
    simp [PITCH_LENGTH, HALF_PITCH_LENGTH]
  · intro b
    rw [tpmY, if_neg (by decide : ¬("0_1" : String) = "skillcorner"), if_pos rfl]
    simp [PITCH_WIDTH, HALF_PITCH_WIDTH]

/-- Closed witness for `c10_normalized_scaling` at `x = [0.5, 1]`,
`y = [0.5]`, whose x 99th percentile is 0.995. -/
theorem c10_normalized_scaling_witness :
    (([(1/2 : ℚ), 1] : List ℚ) ≠ [])
    ∧ pdQuantile [(1/2 : ℚ), 1] (99/100) < 6/5
    ∧ extractScaleStep [(1/2 : ℚ), 1] [(1/2 : ℚ)]
        = ([(1/2 : ℚ), 1].map (fun v => v * 105), [(1/2 : ℚ)].map (fun v => v * 68)) := by
  have hq : pdQuantile [(1/2 : ℚ), 1] (99/100) = 199/200 := by
    have hsort : ([(1/2 : ℚ), 1]).insertionSort (· ≤ ·) = [1/2, 1] := by
      simp only [List.insertionSort, List.orderedInsert]
      rw [if_pos (by norm_num : (1/2 : ℚ) ≤ 1)]
    simp only [pdQuantile, hsort]
    norm_num
  refine ⟨by simp, by rw [hq]; norm_num,
    (c10_normalized_scaling [(1/2 : ℚ), 1] [(1/2 : ℚ)] (by simp)
      (by rw [hq]; norm_num)).1⟩

/-- C3 counterexample: the whole gap-free series `[0,0,1,0,0]` (length 5,
regular 0.1s spacing) is returned by the smoother completely unsmoothed,
because any series shorter than the window (7) is returned before
segmentation; yet the claimed per-segment tier rule (`P+2 < 5 <= W`: shrink
the window to 5 and filter) would smooth it, as `processSegment` shows. -/
theorem c3_counterexample :
    apply_gap_aware_smoothing ([0, 0, 1, 0, 0] : List ℚ)
        [0, 1/10, 2/10, 3/10, 4/10] (1/5) 7 2 = [0, 0, 1, 0, 0]
    ∧ processSegment ([0, 0, 1, 0, 0] : List ℚ) 7 2 ≠ [0, 0, 1, 0, 0] := by
  constructor
  · simp only [apply_gap_aware_smoothing]
    rw [if_pos (by simp)]
  · have hps : processSegment ([0, 0, 1, 0, 0] : List ℚ) 7 2
        = savgolFilter [0, 0, 1, 0, 0] 5 2 := by
      simp only [processSegment, safe_savgol]
      norm_num
    have hval : savgolFilter ([0, 0, 1, 0, 0] : List ℚ) 5 2
        = [-3/35, 12/35, 17/35, 12/35, -3/35] := by
      norm_num [savgolFilter, polyfitCoeffs, normalMatrix, momentVector, powSum,
        replaceColumn, detList, detListAux, polyEval, List.range_succ, List.getD]
    rw [hps, hval]
    intro h
    have := List.head_eq_of_cons_eq h
    norm_num at this

/-- C3 (amended): for an odd window `W` with `P + 2 <= W`, the per-segment
processing of the gap-aware smoother obeys the claimed tiers: a segment
longer than `W` is filtered with window `W`; a segment with
`P + 2 < len <= W` is filtered with the largest odd window `<= len`, which
always exists and exceeds `P` in that range; a segment with `len <= P + 2` is
copied through.  However (see the counterexample) the claim's parenthetical
fails: a whole gap-free series is NOT processed as one segment - a series
shorter than `W` is returned unsmoothed before segmentation ever happens, and
a gap-free series of length `>= W` is filtered directly with window `W`. -/
theorem c3_segment_tiers_amended (segment : List ℚ) (window order : Nat)
    (hodd : window % 2 = 1) (how : order + 2 ≤ window) :
    (window < segment.length →
      processSegment segment window order = savgolFilter segment window order)
    ∧ (order + 2 < segment.length → segment.length ≤ window →
        ∃ w, w % 2 = 1 ∧ w ≤ segment.length ∧ order < w ∧
          (∀ u, u % 2 = 1 → u ≤ segment.length → u ≤ w) ∧
          processSegment segment window order = savgolFilter segment w order)
    ∧ (segment.length ≤ order + 2 →
        processSegment segment window order = segment) := by
  refine ⟨?_, ?_, ?_⟩
  · intro hlong
    simp only [processSegment]
    rw [if_pos hlong]
    simp only [safe_savgol]
    rw [if_neg (show ¬window % 2 = 0 by omega)]
    rw [if_pos (show window ≤ segment.length ∧ order < window from
      ⟨hlong.le, by omega⟩)]
  · intro hlo hhi
    refine ⟨if segment.length % 2 = 0 then segment.length - 1 else segment.length,
      ?_, ?_, ?_, ?_, ?_⟩
    · split_ifs with hpar <;> omega
    · split_ifs with hpar <;> omega
    · split_ifs with hpar <;> omega
    · intro u hu1 hu2
      split_ifs with hpar <;> omega
    · simp only [processSegment]
      rw [if_neg (show ¬window < segment.length by omega), if_pos hlo]
      by_cases hpar : segment.length % 2 = 0
      · rw [if_pos hpar, if_pos rfl]
        rw [if_pos (show order < segment.length + 1 - 2 by omega)]
        simp only [safe_savgol]
        rw [if_neg (show ¬(segment.length + 1 - 2) % 2 = 0 by omega)]
        rw [if_pos (show segment.length + 1 - 2 ≤ segment.length ∧
            order < segment.length + 1 - 2 from ⟨by omega, by omega⟩)]
        rw [if_pos hpar]
        congr 1
      · rw [if_neg hpar, if_neg (show ¬segment.length = segment.length + 1 by omega)]
        rw [if_pos (show order < segment.length by omega)]
        simp only [safe_savgol]
        rw [if_neg hpar]
        rw [if_pos (show segment.length ≤ segment.length ∧ order < segment.length
            from ⟨le_refl _, by omega⟩)]
        rw [if_neg hpar]
  · intro hshort
    simp only [processSegment]
    rw [if_neg (by omega), if_neg (by omega)]

/-- Closed witness for `c3_segment_tiers_amended` at an 8-sample segment with
the default window 7 and order 2. -/
theorem c3_segment_tiers_amended_witness :
    ((7 : Nat) % 2 = 1) ∧ (2 + 2 ≤ 7)
    ∧ (7 < ([1, 2, 3, 4, 5, 6, 7, 8] : List ℚ).length →
        processSegment ([1, 2, 3, 4, 5, 6, 7, 8] : List ℚ) 7 2
          = savgolFilter [1, 2, 3, 4, 5, 6, 7, 8] 7 2) :=
  ⟨rfl, by omega,
    (c3_segment_tiers_amended [1, 2, 3, 4, 5, 6, 7, 8] 7 2 rfl (by omega)).1⟩

/-- C4: the gap-aware smoother returns a series of exactly the input length,
for every series with matching timestamp array, regardless of segmentation. -/
theorem c4_length_invariant (series ts : List ℚ) (maxGap : ℚ)
    (window order : Nat) (hlen : ts.length = series.length) :
    (apply_gap_aware_smoothing series ts maxGap window order).length
      = series.length := by
  simp only [apply_gap_aware_smoothing]
  split_ifs with h1 h2
  · rfl
  · exact length_safe_savgol series window order
  · have hchain : List.Chain (· ≤ ·) 0
        (gapSplits ts maxGap ++ [series.length]) := by
      apply chain_le_of_forall_le
      · intro b _
        exact Nat.zero_le b
      · refine List.pairwise_append.mpr
          ⟨(gapSplits_sorted ts maxGap).imp le_of_lt, List.pairwise_singleton ..,
            ?_⟩
        intro a ha b hb
        rw [List.mem_singleton] at hb
        subst hb
        exact le_of_lt (hlen ▸ gapSplits_mem_lt ha)
    have hflat : (splitAtIndices series
        (gapSplits ts maxGap ++ [series.length]) 0).flatten = series := by
      rw [flatten_splitAtIndices series _ 0 hchain, List.getLastD_concat]
      simp
    have hmap : ∀ chunks : List (List ℚ),
        ((chunks.map (fun seg => processSegment seg window order)).flatten).length
          = chunks.flatten.length := by
      intro chunks
      induction chunks with
      | nil => rfl
      | cons c t ih => simp [length_processSegment, ih]
    rw [hmap, hflat]

/-- Closed witness for `c4_length_invariant` on a 3-sample series. -/
theorem c4_length_invariant_witness :
    (([0, 1, 2] : List ℚ).length = ([5, 6, 7] : List ℚ).length)
    ∧ (apply_gap_aware_smoothing ([5, 6, 7] : List ℚ) [0, 1, 2] (1/5) 7 2).length
        = ([5, 6, 7] : List ℚ).length :=
  ⟨rfl, c4_length_invariant [5, 6, 7] [0, 1, 2] (1/5) 7 2 rfl⟩

/-- C5: when the timestamps contain exactly one gap above the threshold (at
index g), the smoother's output on each side of the gap depends only on the
input values on that same side: two inputs agreeing on one side produce
outputs agreeing on that side (two-run noninterference). -/
theorem c5_gap_noninterference (series series' ts : List ℚ) (maxGap : ℚ)
    (window order : Nat) (g : Nat)
    (hlen : ts.length = series.length) (hlen' : series'.length = series.length)
    (hsplit : gapSplits ts maxGap = [g]) :
    ((series.take g = series'.take g) →
      (apply_gap_aware_smoothing series ts maxGap window order).take g
        = (apply_gap_aware_smoothing series' ts maxGap window order).take g)
    ∧ ((series.drop g = series'.drop g) →
      (apply_gap_aware_smoothing series ts maxGap window order).drop g
        = (apply_gap_aware_smoothing series' ts maxGap window order).drop g) := by
  have hg : g < series.length := by
    have hmem : g ∈ gapSplits ts maxGap := by
      rw [hsplit]; exact List.mem_singleton_self g
    have := gapSplits_mem_lt hmem
    omega
  have key : ∀ s : List ℚ, s.length = series.length →
      apply_gap_aware_smoothing s ts maxGap window order
        = if s.length < window then s
          else processSegment (s.take g) window order
            ++ processSegment (s.drop g) window order := by
    intro s hs
    simp only [apply_gap_aware_smoothing, hsplit]
    split_ifs with h1 h2
    · rfl
    · exact h2.elim
    · have hdrop : (s.drop g).take (s.length - g) = s.drop g := by
        rw [← List.length_drop]
        exact List.take_length _
      have hsp : splitAtIndices s ([g] ++ [s.length]) 0
          = [(s.drop 0).take (g - 0), (s.drop g).take (s.length - g)] := rfl
      rw [hsp]
      simp only [List.drop_zero, Nat.sub_zero, List.map_cons, List.map_nil,
        List.flatten_cons, List.flatten_nil, List.append_nil, hdrop]
  have hA : (processSegment (series.take g) window order).length = g := by
    rw [length_processSegment, List.length_take]
    omega
  have hA' : (processSegment (series'.take g) window order).length = g := by
    rw [length_processSegment, List.length_take]
    omega
  constructor
  · intro hEq
    rw [key series rfl, key series' hlen']
    by_cases hw : series.length < window
    · rw [if_pos hw, if_pos (by omega)]
      rw [hEq]
    · rw [if_neg hw, if_neg (by omega)]
      have e1 : (processSegment (series.take g) window order
          ++ processSegment (series.drop g) window order).take g
          = processSegment (series.take g) window order :=
        List.take_left' hA
      have e2 : (processSegment (series'.take g) window order
          ++ processSegment (series'.drop g) window order).take g
          = processSegment (series'.take g) window order :=
        List.take_left' hA'
      rw [e1, e2, hEq]
  · intro hEq
    rw [key series rfl, key series' hlen']
    by_cases hw : series.length < window
    · rw [if_pos hw, if_pos (by omega)]
      rw [hEq]
    · rw [if_neg hw, if_neg (by omega)]
      have e1 : (processSegment (series.take g) window order
          ++ processSegment (series.drop g) window order).drop g
          = processSegment (series.drop g) window order :=
        List.drop_left' hA
      have e2 : (processSegment (series'.take g) window order
          ++ processSegment (series'.drop g) window order).drop g
          = processSegment (series'.drop g) window order :=
        List.drop_left' hA'
      rw [e1, e2, hEq]

/-- Closed witness for `c5_gap_noninterference`: timestamps with one 0.9s gap
at index 2, two value series agreeing left of the gap. -/
theorem c5_gap_noninterference_witness :
    gapSplits ([0, 1/10, 1, 11/10] : List ℚ) (1/5) = [2]
    ∧ ([1, 2, 3, 4] : List ℚ).take 2 = ([1, 2, 9, 9] : List ℚ).take 2
    ∧ (apply_gap_aware_smoothing ([1, 2, 3, 4] : List ℚ)
          [0, 1/10, 1, 11/10] (1/5) 3 1).take 2
        = (apply_gap_aware_smoothing ([1, 2, 9, 9] : List ℚ)
          [0, 1/10, 1, 11/10] (1/5) 3 1).take 2 := by
  have hdt : dtList ([0, 1/10, 1, 11/10] : List ℚ) = [0, 1/10, 9/10, 1/10] := by
    simp only [dtList, List.headD, List.zipWith]
    norm_num
  have hsplit : gapSplits ([0, 1/10, 1, 11/10] : List ℚ) (1/5) = [2] := by
    simp only [gapSplits, hdt]
    norm_num [List.filter_cons, List.getD, List.range_succ]
  exact ⟨hsplit, rfl,
    (c5_gap_noninterference [1, 2, 3, 4] [1, 2, 9, 9] [0, 1/10, 1, 11/10]
      (1/5) 3 1 2 rfl rfl hsplit).1 rfl⟩

section SumHelpers

lemma sum_eraseIdx_real : ∀ (l : List ℝ) (i : Nat), (h : i < l.length) →
    l.sum = (l.eraseIdx i).sum + l[i]
  | a :: t, 0, _ => by simp [add_comm]
  | a :: t, i + 1, h => by
      have ih := sum_eraseIdx_real t i (by simpa using h)
      simp only [List.eraseIdx_cons_succ, List.sum_cons, List.getElem_cons_succ]
      rw [ih]
      ring

lemma zipWith_eraseIdx_real (f : ℝ → ℝ → ℝ) :
    ∀ (l r : List ℝ) (i : Nat), l.length = r.length →
      List.zipWith f (l.eraseIdx i) (r.eraseIdx i)
        = (List.zipWith f l r).eraseIdx i
  | [], r, i, h => by simp
  | a :: t, [], i, h => by simp at h
  | a :: t, b :: u, 0, h => by simp
  | a :: t, b :: u, i + 1, h => by
      simp only [List.eraseIdx_cons_succ, List.zipWith_cons_cons]
      rw [zipWith_eraseIdx_real f t u i (by simpa using h)]

lemma map_eraseIdx_real (f : ℝ → ℝ) :
    ∀ (l : List ℝ) (i : Nat),
      (l.eraseIdx i).map f = (l.map f).eraseIdx i
  | [], i => by simp
  | a :: t, 0 => by simp
  | a :: t, i + 1 => by
      simp only [List.eraseIdx_cons_succ, List.map_cons]
      rw [map_eraseIdx_real f t i]

lemma sqrt_sq_zero (a : ℝ) (h : 0 ≤ a) : Real.sqrt (a ^ 2 + 0 ^ 2) = a := by
  rw [show a ^ 2 + 0 ^ 2 = a ^ 2 by ring, Real.sqrt_sq h]

lemma length_calculate_velocity_kmh (x y : List ℝ) (fps : ℝ) :
    (calculate_velocity x y fps "km/h").length = (segmentDistances x y).length := by
  simp [calculate_velocity, segmentDistances]

end SumHelpers

/-- C6: a per-step displacement exceeding `MAX_STEP_DISTANCE = 5.0` m
contributes exactly zero to `total_distance`, `sprint_distance` and
`hsr_distance`: the metrics equal the masked sums computed with that step (and
its aligned velocity sample) removed outright. -/
theorem c6_step_rejection (x y : List ℝ) (fps : ℝ) (i : Nat)
    (hi : i < (segmentDistances x y).length)
    (hgt : 5 < (segmentDistances x y).getD i 0) :
    (calculate_distance_metrics x y fps).total_distance
        = (distanceSums ((segmentDistances x y).eraseIdx i)
            ((calculate_velocity x y fps "km/h").eraseIdx i)).1
    ∧ (calculate_distance_metrics x y fps).sprint_distance
        = (distanceSums ((segmentDistances x y).eraseIdx i)
            ((calculate_velocity x y fps "km/h").eraseIdx i)).2.1
    ∧ (calculate_distance_metrics x y fps).hsr_distance
        = (distanceSums ((segmentDistances x y).eraseIdx i)
            ((calculate_velocity x y fps "km/h").eraseIdx i)).2.2 := by
  have hlen : (segmentDistances x y).length
      = (calculate_velocity x y fps "km/h").length :=
    (length_calculate_velocity_kmh x y fps).symm
  have hgt' : 5 < (segmentDistances x y)[i] := by
    rwa [List.getD_eq_getElem (segmentDistances x y) 0 hi] at hgt
  have hnle : ¬(segmentDistances x y)[i] ≤ 5 := not_le.mpr hgt'
  have hproj1 : (calculate_distance_metrics x y fps).total_distance
      = (distanceSums (segmentDistances x y)
          (calculate_velocity x y fps "km/h")).1 := rfl
  have hproj2 : (calculate_distance_metrics x y fps).sprint_distance
      = (distanceSums (segmentDistances x y)
          (calculate_velocity x y fps "km/h")).2.1 := rfl
  have hproj3 : (calculate_distance_metrics x y fps).hsr_distance
      = (distanceSums (segmentDistances x y)
          (calculate_velocity x y fps "km/h")).2.2 := rfl
  have hds1 : ∀ sd v : List ℝ, (distanceSums sd v).1
      = (sd.map (fun d => if d ≤ 5 then d else 0)).sum := fun _ _ => by
    simp [distanceSums]
  have hds2 : ∀ sd v : List ℝ, (distanceSums sd v).2.1
      = (List.zipWith (fun d w => if 25 < w ∧ d ≤ 5 then d else 0) sd v).sum :=
    fun _ _ => by simp [distanceSums]
  have hds3 : ∀ sd v : List ℝ, (distanceSums sd v).2.2
      = (List.zipWith (fun d w => if 20 < w ∧ d ≤ 5 then d else 0) sd v).sum :=
    fun _ _ => by simp [distanceSums]
  refine ⟨?_, ?_, ?_⟩
  · rw [hproj1, hds1, hds1]
    rw [map_eraseIdx_real, sum_eraseIdx_real ((segmentDistances x y).map _) i
      (by simpa using hi)]
    rw [List.getElem_map]
    rw [if_neg hnle]
    ring
  · rw [hproj2, hds2, hds2]
    rw [zipWith_eraseIdx_real _ (segmentDistances x y) _ i hlen]
    have hiz : i < (List.zipWith
        (fun d w => if 25 < w ∧ d ≤ 5 then d else 0) (segmentDistances x y)
        (calculate_velocity x y fps "km/h")).length := by
      simp only [List.length_zipWith]
      omega
    rw [sum_eraseIdx_real _ i hiz, List.getElem_zipWith]
    rw [if_neg (fun hc => hnle hc.2)]
    ring
  · rw [hproj3, hds3, hds3]
    rw [zipWith_eraseIdx_real _ (segmentDistances x y) _ i hlen]
    have hiz : i < (List.zipWith
        (fun d w => if 20 < w ∧ d ≤ 5 then d else 0) (segmentDistances x y)
        (calculate_velocity x y fps "km/h")).length := by
      simp only [List.length_zipWith]
      omega
    rw [sum_eraseIdx_real _ i hiz, List.getElem_zipWith]
    rw [if_neg (fun hc => hnle hc.2)]
    ring

/-- Closed witness for `c6_step_rejection`: a synthetic single-frame 10 m jump
(step index 1 of the track x = [0,1,11,12] along the x-axis) contributes
nothing to the three distance sums. -/
theorem c6_step_rejection_witness :
    (1 < (segmentDistances [0, 1, 11, 12] [0, 0, 0, 0]).length)
    ∧ (5 < (segmentDistances [0, 1, 11, 12] [0, 0, 0, 0]).getD 1 0)
    ∧ (calculate_distance_metrics [0, 1, 11, 12] [0, 0, 0, 0] 10).total_distance
        = (distanceSums ((segmentDistances [0, 1, 11, 12] [0, 0, 0, 0]).eraseIdx 1)
            ((calculate_velocity [0, 1, 11, 12] [0, 0, 0, 0] 10 "km/h").eraseIdx 1)).1 := by
  have hsd : segmentDistances [0, 1, 11, 12] [0, 0, 0, 0] = [1, 10, 1] := by
    have h1 : Real.sqrt (((1 : ℝ) - 0) ^ 2 + ((0 : ℝ) - 0) ^ 2) = 1 := by
      rw [show ((1 : ℝ) - 0) ^ 2 + ((0 : ℝ) - 0) ^ 2 = 1 ^ 2 + 0 ^ 2 by norm_num]
      exact sqrt_sq_zero 1 (by norm_num)
    have h2 : Real.sqrt (((11 : ℝ) - 1) ^ 2 + ((0 : ℝ) - 0) ^ 2) = 10 := by
      rw [show ((11 : ℝ) - 1) ^ 2 + ((0 : ℝ) - 0) ^ 2 = 10 ^ 2 + 0 ^ 2 by norm_num]
      exact sqrt_sq_zero 10 (by norm_num)
    have h3 : Real.sqrt (((12 : ℝ) - 11) ^ 2 + ((0 : ℝ) - 0) ^ 2) = 1 := by
      rw [show ((12 : ℝ) - 11) ^ 2 + ((0 : ℝ) - 0) ^ 2 = 1 ^ 2 + 0 ^ 2 by norm_num]
      exact sqrt_sq_zero 1 (by norm_num)
    simp only [segmentDistances, npDiff, List.tail, List.zipWith, h1, h2, h3]
  have hi : 1 < (segmentDistances [(0 : ℝ), 1, 11, 12] [0, 0, 0, 0]).length := by
    rw [hsd]
    norm_num
  have hgt : 5 < (segmentDistances [(0 : ℝ), 1, 11, 12] [0, 0, 0, 0]).getD 1 0 := by
    rw [hsd]
    norm_num [List.getD]
  exact ⟨hi, hgt,
    (c6_step_rejection [0, 1, 11, 12] [0, 0, 0, 0] 10 1 hi hgt).1⟩

/-- C7: an empty or single-sample track yields the all-zero metrics record;
the function is total, so no exception is possible. -/
theorem c7_degenerate_zero (x y : List ℝ) (fps : ℝ)
    (hx : x.length ≤ 1) (hy : y.length ≤ 1) :
    calculate_distance_metrics x y fps
      = { total_distance := 0, sprint_distance := 0, hsr_distance := 0,
          max_speed := 0, avg_speed := 0 } := by
  have hdx : npDiff x = [] := by
    cases x with
    | nil => rfl
    | cons a t =>
        cases t with
        | nil => rfl
        | cons b u => simp at hx
  have hsd : segmentDistances x y = [] := by
    simp [segmentDistances, hdx]
  have hv : calculate_velocity x y fps "km/h" = [] := by
    simp [calculate_velocity, hdx]
  simp [calculate_distance_metrics, hsd, hv, distanceSums]

/-- Closed witness for `c7_degenerate_zero` on the empty track. -/
theorem c7_degenerate_zero_witness :
    (([] : List ℝ).length ≤ 1)
    ∧ calculate_distance_metrics ([] : List ℝ) ([] : List ℝ) 10
      = { total_distance := 0, sprint_distance := 0, hsr_distance := 0,
          max_speed := 0, avg_speed := 0 } :=
  ⟨by decide, c7_degenerate_zero [] [] 10 (by decide) (by decide)⟩

/-- C1 (amended): the 42 km/h hard clamp holds for the pre-smoothing speed
series: every `velocity_raw` sample is at most 42/3.6 m/s, i.e. at most
42 km/h; the clamp drops nothing (the clamped series has the same length as
the raw one); and speeds above the 45 km/h anomaly threshold are counted, not
dropped.  The claim as stated is false for the reported `velocity_kmh`
column, which re-smooths the clamped series and can overshoot the clamp (see
the counterexample). -/
theorem c1_speed_clamp_amended (t x y : List ℝ) :
    (∀ v ∈ velocity_raw t x y, v * 3.6 ≤ 42)
    ∧ (velocity_raw t x y).length = (rawSpeeds t x y).length
    ∧ anomalyCount t x y
        = ((rawSpeeds t x y).filter (fun s => decide (45 / 3.6 < s))).length := by
  refine ⟨?_, by simp [velocity_raw], ?_⟩
  · intro v hv
    obtain ⟨s, -, rfl⟩ := List.mem_map.mp hv
    have h1 : min (max s 0) (MAX_VELOCITY_KMH / 3.6) ≤ 42 / 3.6 := by
      rw [MAX_VELOCITY_KMH]
      exact min_le_right _ _
    calc min (max s 0) (MAX_VELOCITY_KMH / 3.6) * 3.6
        ≤ 42 / 3.6 * 3.6 := by
          have h36 : (0 : ℝ) ≤ 3.6 := by norm_num
          exact mul_le_mul_of_nonneg_right h1 h36
      _ = 42 := by norm_num
  · simp only [anomalyCount, VELOCITY_ANOMALY_THRESHOLD]

/-- Closed witness for `c1_speed_clamp_amended`: a two-sample track moving
10 m/s along x; its clamped raw speed 10 m/s is 36 km/h, at most 42. -/
theorem c1_speed_clamp_amended_witness :
    ((10 : ℝ) ∈ velocity_raw [0, 1/10] [0, 1] [0, 0])
    ∧ (10 : ℝ) * 3.6 ≤ 42 := by
  have hspx : smoothedPosition [0, 1/10] [0, 1] = [(0 : ℝ), 1] := by
    simp only [smoothedPosition]
    rw [if_neg (by simp)]
  have hspy : smoothedPosition [0, 1/10] [0, 0] = [(0 : ℝ), 0] := by
    simp only [smoothedPosition]
    rw [if_neg (by simp)]
  have hgx : npGradient [(0 : ℝ), 1] [0, 1/10] = [10, 10] := by
    simp only [npGradient, gradMid]
    norm_num
  have hgy : npGradient [(0 : ℝ), 0] [0, 1/10] = [0, 0] := by
    simp only [npGradient, gradMid]
    norm_num
  have h10 : Real.sqrt ((10 : ℝ) ^ 2 + 0 ^ 2) = 10 := sqrt_sq_zero 10 (by norm_num)
  have hraw : rawSpeeds [0, 1/10] [0, 1] [0, 0] = [10, 10] := by
    rw [rawSpeeds, hspx, hspy, hgx, hgy]
    simp only [List.zipWith, h10]
  have hmem : (10 : ℝ) ∈ velocity_raw [0, 1/10] [0, 1] [0, 0] := by
    have hvr : velocity_raw [0, 1/10] [0, 1] [0, 0] = [10, 10] := by
      rw [velocity_raw, hraw]
      simp only [List.map, MAX_VELOCITY_KMH]
      norm_num [min_def, max_def]
    rw [hvr]
    simp
  exact ⟨hmem, (c1_speed_clamp_amended [0, 1/10] [0, 1] [0, 0]).1 10 hmem⟩

/-- C1 counterexample: a 6-sample track at 0.1s spacing moving 100 m/s for
four steps and stopping.  All raw speeds are clamped to 42 km/h = 35/3 m/s,
so the clamped series is `[c,c,c,c,c,0]`; re-smoothing it with the
window-5 Savitzky-Golay filter overshoots at index 3
(`(-3c+12c+17c+12c-3*0)/35 = 38c/35`), and the reported `velocity_kmh`
column holds `3.6 * 38c/35 = 45.6 > 42` there, refuting the claim that every
reported speed is at most 42 km/h. -/
theorem c1_counterexample :
    42 < (velocity_kmh [0, 1/10, 2/10, 3/10, 4/10, 5/10]
      [0, 10, 20, 30, 40, 40] [0, 0, 0, 0, 0, 0]).getD 3 0 := by
  have hspx : smoothedPosition [0, 1/10, 2/10, 3/10, 4/10, 5/10]
      [0, 10, 20, 30, 40, 40] = [(0 : ℝ), 10, 20, 30, 40, 40] := by
    simp only [smoothedPosition]
    rw [if_pos (by simp), apply_gap_aware_smoothing, if_pos (by simp)]
  have hspy : smoothedPosition [0, 1/10, 2/10, 3/10, 4/10, 5/10]
      [0, 0, 0, 0, 0, 0] = [(0 : ℝ), 0, 0, 0, 0, 0] := by
    simp only [smoothedPosition]
    rw [if_pos (by simp), apply_gap_aware_smoothing, if_pos (by simp)]
  have hgx : npGradient [(0 : ℝ), 10, 20, 30, 40, 40]
      [0, 1/10, 2/10, 3/10, 4/10, 5/10] = [100, 100, 100, 100, 50, 0] := by
    simp only [npGradient, gradMid]
    norm_num
  have hgy : npGradient [(0 : ℝ), 0, 0, 0, 0, 0]
      [0, 1/10, 2/10, 3/10, 4/10, 5/10] = [0, 0, 0, 0, 0, 0] := by
    simp only [npGradient, gradMid]
    norm_num
  have h100 : Real.sqrt ((100 : ℝ) ^ 2 + 0 ^ 2) = 100 :=
    sqrt_sq_zero 100 (by norm_num)
  have h50 : Real.sqrt ((50 : ℝ) ^ 2 + 0 ^ 2) = 50 :=
    sqrt_sq_zero 50 (by norm_num)
  have h0 : Real.sqrt ((0 : ℝ) ^ 2 + 0 ^ 2) = 0 :=
    sqrt_sq_zero 0 (by norm_num)
  have hraw : rawSpeeds [0, 1/10, 2/10, 3/10, 4/10, 5/10]
      [0, 10, 20, 30, 40, 40] [0, 0, 0, 0, 0, 0]
      = [100, 100, 100, 100, 50, 0] := by
    rw [rawSpeeds, hspx, hspy, hgx, hgy]
    simp only [List.zipWith, h100, h50, h0]
  have hvr : velocity_raw [0, 1/10, 2/10, 3/10, 4/10, 5/10]
      [0, 10, 20, 30, 40, 40] [0, 0, 0, 0, 0, 0]
      = [35/3, 35/3, 35/3, 35/3, 35/3, 0] := by
    rw [velocity_raw, hraw]
    simp only [List.map, MAX_VELOCITY_KMH]
    norm_num [min_def, max_def]
  have hdt : dtList [(0 : ℝ), 1/10, 2/10, 3/10, 4/10, 5/10]
      = [0, 1/10, 1/10, 1/10, 1/10, 1/10] := by
    simp only [dtList, List.headD, List.zipWith]
    norm_num
  have hsplits : gapSplits [(0 : ℝ), 1/10, 2/10, 3/10, 4/10, 5/10] 0.2 = [] := by
    simp only [gapSplits, hdt]
    norm_num [List.filter_cons, List.getD, List.range_succ]
  have hsav : savgolFilter [(35 : ℝ)/3, 35/3, 35/3, 35/3, 35/3, 0] 5 2
      = [35/3, 35/3, 35/3, 38/3, 26/3, 4/3] := by
    norm_num [savgolFilter, polyfitCoeffs, normalMatrix, momentVector, powSum,
      replaceColumn, detList, detListAux, polyEval, List.range_succ, List.getD]
  have hgap : apply_gap_aware_smoothing [(35 : ℝ)/3, 35/3, 35/3, 35/3, 35/3, 0]
      [0, 1/10, 2/10, 3/10, 4/10, 5/10] 0.2 5 2
      = savgolFilter [(35 : ℝ)/3, 35/3, 35/3, 35/3, 35/3, 0] 5 2 := by
    simp only [apply_gap_aware_smoothing, hsplits, safe_savgol]
    norm_num
  have hvel : velocity_col [0, 1/10, 2/10, 3/10, 4/10, 5/10]
      [0, 10, 20, 30, 40, 40] [0, 0, 0, 0, 0, 0]
      = [35/3, 35/3, 35/3, 38/3, 26/3, 4/3] := by
    rw [velocity_col,
      if_pos (show 5 < ([(0 : ℝ), 1/10, 2/10, 3/10, 4/10, 5/10] : List ℝ).length
        by simp),
      hvr, hgap, hsav]
  rw [velocity_kmh, hvel]
  simp only [List.map, List.getD]
  norm_num
